import Mathlib

/-!
Shallow embedding of `src/ordenar_1.3.py`, a one-shot batch report generator:
it scans folders of CSV files, extracts the last value of the second column of
each file, converts units, merges the per-folder tables on the converted
numeric key, exports the merged table and plots interpolated curves.

Numeric values are modelled as exact rationals (`ℚ`); file contents as lists
of rows of rationals; the filesystem as explicit lists of named entries.
Fallible operations (`float(...)`, `pd.read_csv`, `df.iloc[-1, 1]`, cubic
interpolation) are modelled with `Option`/error fields.
-/

namespace Ordenar

/-! ### Strings as character lists: helpers mirroring the Python string API -/

/-- Python's `str.split(sep)` for a one-character separator: splits into the
(possibly empty) groups between separator occurrences; never returns `[]`. -/
def splitOnChar (sep : Char) : List Char → List (List Char)
  | [] => [[]]
  | c :: rest =>
    if c = sep then [] :: splitOnChar sep rest
    else
      match splitOnChar sep rest with
      | [] => [[c]]
      | g :: gs => (c :: g) :: gs

/-- Python's `str.endswith(".csv")`. -/
def endsWithCsv (s : String) : Bool :=
  s.data.reverse.take 4 = ['v', 's', 'c', '.']

/-- Count of digits `0`-`9` read as a natural number (`digitsToNat ['1','0','0'] = 100`). -/
def digitsToNat (cs : List Char) : ℕ :=
  cs.foldl (fun a c => 10 * a + (c.toNat - 48)) 0

/-- True when every character is an ASCII digit. -/
def allDigits (cs : List Char) : Bool :=
  cs.all (·.isDigit)

/-- Python `float(s)` on an unsigned body: digit string with at most one
decimal point and at least one digit.  `none` models the raised `ValueError`. -/
def pyFloatBody (cs : List Char) : Option ℚ :=
  match splitOnChar '.' cs with
  | [ip] =>
    if ip.isEmpty || !allDigits ip then none
    else some (digitsToNat ip)
  | [ip, fp] =>
    if (ip.isEmpty && fp.isEmpty) || !allDigits ip || !allDigits fp then none
    else some ((digitsToNat ip : ℚ) + (digitsToNat fp : ℚ) / 10 ^ fp.length)
  | _ => none

/-- Python `float(s)`: optional sign then an unsigned body.  (Exponents,
`inf`/`nan`, underscores and surrounding whitespace are not modelled; no
input of interest uses them.) -/
def pyFloat (s : String) : Option ℚ :=
  match s.data with
  | '-' :: rest => (pyFloatBody rest).map (fun q => -q)
  | '+' :: rest => pyFloatBody rest
  | _ => pyFloatBody s.data

/-- `os.path.splitext(s)[0]`: drops the final `.ext`, unless every character
before the last dot is itself a dot (then nothing is stripped). -/
def splitextBase (s : String) : String :=
  let cs := s.data
  if '.' ∈ cs then
    let i := cs.length - 1 - cs.reverse.indexOf '.'
    if (cs.take i).all (· = '.') then s else String.mk (cs.take i)
  else s

/-! ### Filename Parser (`extract_numeric_part`, lines 8-10) -/

/-- `float(filename.split('.')[-1])`; `none` models the `ValueError` raised
on a non-numeric final segment. -/
def extract_numeric_part (filename : String) : Option ℚ :=
  pyFloat (String.mk ((splitOnChar '.' filename.data).getLastD []))

/-! ### Filesystem model -/

/-- What `pd.read_csv` yields for one file: a table (`cols` columns, the data
rows below the header), or a raised exception with its message. -/
inductive FileContent where
  | table (cols : ℕ) (rows : List (List ℚ))
  | readError (msg : String)
deriving DecidableEq, Repr

/-- One directory entry: a file name and what reading it produces. -/
structure FileEntry where
  name : String
  content : FileContent
deriving DecidableEq, Repr

/-- One input folder: its path and its directory listing in `os.listdir` order. -/
structure Folder where
  path : String
  files : List FileEntry
deriving DecidableEq, Repr

/-- `df.iloc[-1, 1]`: the entry at index 1 of the last row; `none` models the
`IndexError` raised when there is no such entry. -/
def lastSecond (rows : List (List ℚ)) : Option ℚ :=
  rows.getLast?.bind (fun r => r.get? 1)

/-! ### Folder Aggregator (lines 26-46): the per-file loop -/

/-- Python `dict` assignment `d[k] = v`: update in place if the key exists,
else append. -/
def dictInsert {α : Type} (d : List (String × α)) (k : String) (v : α) :
    List (String × α) :=
  if d.any (fun p => p.1 = k) then
    d.map (fun p => if p.1 = k then (k, v) else p)
  else d ++ [(k, v)]

/-- Effect of one loop iteration on the accumulation dict `data`:
non-`.csv` entries and skipped files leave it unchanged. -/
def dataStep (data : List (String × ℚ)) (f : FileEntry) : List (String × ℚ) :=
  if endsWithCsv f.name then
    match f.content with
    | .readError _ => data
    | .table cols rows =>
      if 1 < cols then
        match lastSecond rows with
        | some v => dictInsert data (splitextBase f.name) v
        | none => data
      else data
  else data

/-- Diagnostics printed by one loop iteration (empty for included files and
for non-`.csv` entries). -/
def diagStep (f : FileEntry) : List String :=
  if endsWithCsv f.name then
    match f.content with
    | .readError msg => ["Error reading " ++ f.name ++ ": " ++ msg]
    | .table cols rows =>
      if 1 < cols then
        match lastSecond rows with
        | some _ => []
        | none => ["Error reading " ++ f.name ++ ": single positional indexer is out-of-bounds"]
      else ["File " ++ f.name ++ " does not have a second column."]
  else []

/-- The accumulation dict after the whole per-file loop. -/
def aggregateData (files : List FileEntry) : List (String × ℚ) :=
  files.foldl dataStep []

/-- All diagnostics printed by the per-file loop, in order. -/
def aggregateDiags (files : List FileEntry) : List String :=
  files.flatMap diagStep

/-! ### Unit Converter (lines 16-18, 56-67) -/

/-- `lbf_a_N = 4.44822` (pounds-force to newtons). -/
def lbf_a_N : ℚ := 4.44822

/-- `fts_a_ms = 0.3048` (feet per second to metres per second). -/
def fts_a_ms : ℚ := 0.3048

/-- One row of a Folder Table after the conversions of lines 56-67:
`NumericPart` already multiplied by `fts_a_ms`, `Drag_N`, `Potencia_necesaria`. -/
structure Row where
  fileName : String
  lastValue : ℚ
  numericPart : ℚ
  drag : ℚ
  power : ℚ
deriving DecidableEq, Repr

/-- Lines 56-67 applied to the aggregation dict: `NumericPart` from the file
name (the `.apply(extract_numeric_part)` of line 57, whose `ValueError` is NOT
caught and aborts the run), then the three derived columns. -/
def computeRows : List (String × ℚ) → Except String (List Row)
  | [] => .ok []
  | (name, v) :: rest =>
    match extract_numeric_part name with
    | none =>
      .error ("could not convert string to float: " ++
        String.mk ((splitOnChar '.' name.data).getLastD []))
    | some k =>
      (computeRows rest).map (fun rs =>
        ⟨name, v, k * fts_a_ms, v * lbf_a_N, (k * fts_a_ms) * (v * lbf_a_N) / 1000⟩ :: rs)

/-! ### `process_csv_folders` (lines 12-74) -/

/-- Result of `process_csv_folders`: the `all_data` dict (folder path →
Folder Table), everything printed, and — since the `ValueError` of line 57 is
uncaught — the exception that aborted the run, if any. -/
structure ProcResult where
  tables : List (String × List Row)
  diags : List String
  err : Option String
deriving DecidableEq, Repr

/-- Processing of one folder appended to the state; once `err` is set the
exception is propagating and nothing further runs. -/
def folderStep (st : ProcResult) (fd : Folder) : ProcResult :=
  match st.err with
  | some _ => st
  | none =>
    let data := aggregateData fd.files
    let diags := st.diags ++ aggregateDiags fd.files
    if data.isEmpty then
      { st with diags := diags ++ ["No valid data found in folder " ++ fd.path ++ "."] }
    else
      match computeRows data with
      | .error e => { st with diags := diags, err := some e }
      | .ok rows => { tables := dictInsert st.tables fd.path rows,
                      diags := diags, err := none }

/-- `process_csv_folders(folder_paths)`. -/
def process_csv_folders (folders : List Folder) : ProcResult :=
  folders.foldl folderStep ⟨[], [], none⟩

/-! ### Merger (lines 82-87) -/

/-- A merged row: the shared `NumericPart` key and one matching Folder-Table
row per folder (column-suffixing is modelled by keeping the rows separate). -/
abbrev MergedRow := ℚ × List Row

/-- `pd.merge(acc, t, on='NumericPart', ...)`: inner join, left order, each
left row paired with every right row of equal key. -/
def merge1 (acc : List MergedRow) (t : List Row) : List MergedRow :=
  acc.flatMap (fun kr =>
    (t.filter (fun r => decide (r.numericPart = kr.1))).map (fun r => (kr.1, kr.2 ++ [r])))

/-- The iterative merge of lines 82-87: `none` when there is no table at all
(`merged_df is None`). -/
def mergeAll : List (List Row) → Option (List MergedRow)
  | [] => none
  | t :: ts => some (ts.foldl merge1 (t.map (fun r => (r.numericPart, [r]))))

/-! ### Sorting (lines 95, 107) and the plot step (lines 105-137) -/

/-- `merged_df.sort_values(by='NumericPart')`. -/
def sortMerged (m : List MergedRow) : List MergedRow :=
  m.mergeSort (fun a b => decide (a.1 ≤ b.1))

/-- `df.sort_values(by='NumericPart')` for one Folder Table. -/
def sortRows (t : List Row) : List Row :=
  t.mergeSort (fun a b => decide (a.numericPart ≤ b.numericPart))

/-- What the plot records for one folder: its label and the sorted
(`NumericPart`, `Potencia_necesaria`) scatter points. -/
structure PlotSeries where
  folder : String
  points : List (ℚ × ℚ)
deriving DecidableEq, Repr

/-- The plotting loop of lines 105-122: per folder, sort and interpolate;
`interp1d(..., kind='cubic')` raises when there are fewer than 4 points, and
then `savefig` is never reached (the first failing folder aborts the loop). -/
def plotStep : List (String × List Row) → Except String (List PlotSeries)
  | [] => .ok []
  | ft :: rest =>
    let pts := (sortRows ft.2).map (fun r => (r.numericPart, r.power))
    if pts.length < 4 then
      .error ("The number of derivatives at boundaries does not match: expected 1 but got " ++
        toString pts.length)
    else (plotStep rest).map (fun ss => ⟨ft.1, pts⟩ :: ss)

/-! ### `plot_data` (lines 76-141): the whole run -/

/-- Observable outcome of one `plot_data` run: the spreadsheet written (the
sorted merged table), the image written (the plotted series), the printed
diagnostics, and the uncaught exception if the run aborted. -/
structure RunResult where
  spreadsheet : Option (List MergedRow)
  image : Option (List PlotSeries)
  diags : List String
  err : Option String
deriving DecidableEq, Repr

/-- `plot_data(folder_paths, output_file, graph_file)`. -/
def plot_data (folders : List Folder) : RunResult :=
  let p := process_csv_folders folders
  match p.err with
  | some e => ⟨none, none, p.diags, some e⟩
  | none =>
    match mergeAll (p.tables.map (fun ft => ft.2)) with
    | none => ⟨none, none, p.diags ++ ["No valid merged data found. Exiting."], none⟩
    | some m =>
      if m.isEmpty then
        ⟨none, none, p.diags ++ ["No valid merged data found. Exiting."], none⟩
      else
        let sorted := sortMerged m
        match plotStep p.tables with
        | .error e => ⟨some sorted, none, p.diags, some e⟩
        | .ok series => ⟨some sorted, some series, p.diags, none⟩

/-! ### The unused speed-of-sound-ratio constants (lines 20-23)

`process_csv_folders` opens by computing two standard-atmosphere density
ratios and the derived `Tas_Eas` constants; no later line reads them.  The
variants below keep those computations in place (as the source does), so
their equality with the plain definitions states exactly that dropping the
computations changes nothing. -/

/-- Line 20: `((1 - 22.558e-6 * 1700) ** 4.2559) ** (1 / 2)`. -/
noncomputable def raiz_sigma_1700ft : ℝ :=
  ((1 - 22.558 * (10 : ℝ) ^ (-6 : ℤ) * 1700) ^ (4.2559 : ℝ)) ^ ((1 : ℝ) / 2)

/-- Line 21: `((1 - 22.558e-6 * 13000) ** 4.2559) ** (1 / 2)`. -/
noncomputable def raiz_sigma_13000ft : ℝ :=
  ((1 - 22.558 * (10 : ℝ) ^ (-6 : ℤ) * 13000) ^ (4.2559 : ℝ)) ^ ((1 : ℝ) / 2)

/-- Line 22: `fts_a_ms * raiz_sigma_1700ft`. -/
noncomputable def Tas_Eas_1700ft : ℝ := (fts_a_ms : ℝ) * raiz_sigma_1700ft

/-- Line 23: `fts_a_ms * raiz_sigma_13000ft`. -/
noncomputable def Tas_Eas_13000ft : ℝ := (fts_a_ms : ℝ) * raiz_sigma_13000ft

/-- `process_csv_folders` with the computations of lines 20-23 kept in place. -/
noncomputable def process_csv_folders_full (folders : List Folder) : ProcResult :=
  let _raiz_sigma_1700ft := raiz_sigma_1700ft
  let _raiz_sigma_13000ft := raiz_sigma_13000ft
  let _Tas_Eas_1700ft := Tas_Eas_1700ft
  let _Tas_Eas_13000ft := Tas_Eas_13000ft
  folders.foldl folderStep ⟨[], [], none⟩

/-- `plot_data` running on top of `process_csv_folders_full`. -/
noncomputable def plot_data_full (folders : List Folder) : RunResult :=
  let p := process_csv_folders_full folders
  match p.err with
  | some e => ⟨none, none, p.diags, some e⟩
  | none =>
    match mergeAll (p.tables.map (fun ft => ft.2)) with
    | none => ⟨none, none, p.diags ++ ["No valid merged data found. Exiting."], none⟩
    | some m =>
      if m.isEmpty then
        ⟨none, none, p.diags ++ ["No valid merged data found. Exiting."], none⟩
      else
        let sorted := sortMerged m
        match plotStep p.tables with
        | .error e => ⟨some sorted, none, p.diags, some e⟩
        | .ok series => ⟨some sorted, some series, p.diags, none⟩

/-! ### Concrete inputs used by the end-to-end scenario and the witnesses -/

/-- Folder A of the spec's end-to-end scenario: `run.100` ends at 50,
`run.200` ends at 80. -/
def folderA : Folder :=
  ⟨"A", [⟨"run.100.csv", .table 2 [[0, 50]]⟩, ⟨"run.200.csv", .table 2 [[0, 80]]⟩]⟩

/-- Folder B of the spec's end-to-end scenario: `run.100` ends at 55,
`run.200` ends at 85. -/
def folderB : Folder :=
  ⟨"B", [⟨"run.100.csv", .table 2 [[0, 55]]⟩, ⟨"run.200.csv", .table 2 [[0, 85]]⟩]⟩

/-- A folder whose keys (300, 400) are disjoint from folder A's. -/
def folderD : Folder :=
  ⟨"D", [⟨"run.300.csv", .table 2 [[0, 10]]⟩, ⟨"run.400.csv", .table 2 [[0, 20]]⟩]⟩

/-- A folder with four valid files, enough for the cubic interpolation. -/
def folderE : Folder :=
  ⟨"E", [⟨"run.100.csv", .table 2 [[0, 50]]⟩, ⟨"run.200.csv", .table 2 [[0, 80]]⟩,
         ⟨"run.300.csv", .table 2 [[0, 90]]⟩, ⟨"run.400.csv", .table 2 [[0, 95]]⟩]⟩

/-- One folder whose second file's base name `run.abc` has a non-numeric
final segment; its first file is perfectly valid. -/
def folderBad : Folder :=
  ⟨"F", [⟨"run.100.csv", .table 2 [[0, 50]]⟩, ⟨"run.abc.csv", .table 2 [[0, 60]]⟩]⟩

end Ordenar

namespace Ordenar

/-! ## Helper lemmas -/

theorem splitOnChar_ne_nil (sep : Char) (cs : List Char) : splitOnChar sep cs ≠ [] := by
  cases cs with
  | nil => simp [splitOnChar]
  | cons c rest =>
    simp only [splitOnChar]
    by_cases hc : c = sep
    · simp [hc]
    · simp only [if_neg hc]
      cases h : splitOnChar sep rest <;> simp

theorem splitOnChar_of_not_mem {sep : Char} {cs : List Char} (h : sep ∉ cs) :
    splitOnChar sep cs = [cs] := by
  induction cs with
  | nil => rfl
  | cons c rest ih =>
    simp only [List.mem_cons, not_or] at h
    obtain ⟨h1, h2⟩ := h
    have hcs : ¬c = sep := fun hh => h1 hh.symm
    simp only [splitOnChar, if_neg hcs, ih h2]

theorem two_le_length_splitOnChar {sep : Char} {cs : List Char} (h : sep ∈ cs) :
    2 ≤ (splitOnChar sep cs).length := by
  induction cs with
  | nil => simp at h
  | cons c rest ih =>
    simp only [splitOnChar]
    by_cases hc : c = sep
    · have h1 : 0 < (splitOnChar sep rest).length :=
        List.length_pos.mpr (splitOnChar_ne_nil sep rest)
      simp only [if_pos hc, List.length_cons]
      omega
    · have hr : sep ∈ rest := by
        rcases List.mem_cons.mp h with h' | h'
        · exact absurd h'.symm hc
        · exact h'
      simp only [if_neg hc]
      cases hsp : splitOnChar sep rest with
      | nil => exact absurd hsp (splitOnChar_ne_nil sep rest)
      | cons g gs =>
        have := ih hr
        rw [hsp] at this
        simpa using this

theorem getLastD_splitOnChar_append {sep : Char} (cs tail : List Char) (h : sep ∉ tail) :
    (splitOnChar sep (cs ++ sep :: tail)).getLastD [] = tail := by
  induction cs with
  | nil =>
    simp only [List.nil_append, splitOnChar, if_pos rfl]
    rw [splitOnChar_of_not_mem h]
    rfl
  | cons c cs ih =>
    by_cases hc : c = sep
    · simpa only [List.cons_append, splitOnChar, if_pos hc, List.getLastD_cons] using ih
    · simp only [List.cons_append, splitOnChar, if_neg hc]
      cases hsp : splitOnChar sep (cs ++ sep :: tail) with
      | nil => exact absurd hsp (splitOnChar_ne_nil _ _)
      | cons g gs =>
        have hlen : 2 ≤ (splitOnChar sep (cs ++ sep :: tail)).length :=
          two_le_length_splitOnChar (by simp)
        rw [hsp] at hlen
        rw [hsp] at ih
        cases gs with
        | nil => simp at hlen
        | cons g2 gs2 => simpa only [List.getLastD_cons] using ih

theorem computeRows_mem {data : List (String × ℚ)} {rows : List Row}
    (h : computeRows data = .ok rows) :
    ∀ p ∈ data, ∀ k : ℚ, extract_numeric_part p.1 = some k →
      (⟨p.1, p.2, k * fts_a_ms, p.2 * lbf_a_N,
        (k * fts_a_ms) * (p.2 * lbf_a_N) / 1000⟩ : Row) ∈ rows := by
  induction data generalizing rows with
  | nil => intro p hp; simp at hp
  | cons hd tl ih =>
    intro p hp k hk
    obtain ⟨name, v⟩ := hd
    simp only [computeRows] at h
    cases he : extract_numeric_part name with
    | none => rw [he] at h; simp at h
    | some k0 =>
      rw [he] at h
      cases ht : computeRows tl with
      | error e => rw [ht] at h; simp [Except.map] at h
      | ok rs =>
        rw [ht] at h
        simp only [Except.map, Except.ok.injEq] at h
        subst h
        rcases List.mem_cons.mp hp with h' | h'
        · subst h'
          simp only at hk
          rw [he] at hk
          obtain rfl : k0 = k := Option.some.inj hk
          exact List.mem_cons_self _ _
        · exact List.mem_cons_of_mem _ (ih ht p h' k hk)

/-! ## Claims -/

/-- C9: the two speed-of-sound-ratio constants of lines 20-23 (and the
intermediate density ratios) are computed but never consumed: the run with
those computations in place produces exactly the same `ProcResult` and
`RunResult` as the run with them removed, on every input. -/
theorem C9_sigma_constants_unused (folders : List Folder) :
    process_csv_folders_full folders = process_csv_folders folders ∧
    plot_data_full folders = plot_data folders :=
  ⟨rfl, rfl⟩

/-- C4: whenever the merge yields no table (`merged_df is None`) or an empty
table, the run prints the diagnostic and terminates before export and plot:
neither the spreadsheet nor the image is produced. -/
theorem C4_empty_merge_no_outputs (folders : List Folder)
    (hok : (process_csv_folders folders).err = none)
    (hm : mergeAll ((process_csv_folders folders).tables.map (fun ft => ft.2)) = none ∨
          mergeAll ((process_csv_folders folders).tables.map (fun ft => ft.2)) = some []) :
    (plot_data folders).spreadsheet = none ∧ (plot_data folders).image = none ∧
    "No valid merged data found. Exiting." ∈ (plot_data folders).diags := by
  rcases hm with hm | hm <;> simp [plot_data, hok, hm]

set_option maxRecDepth 200000 in
/-- Witness for C4 at a concrete input: folders A and D have disjoint key
sets, the inner join eliminates every row, and the run produces no outputs. -/
theorem C4_empty_merge_no_outputs_witness :
    (plot_data [folderA, folderD]).spreadsheet = none ∧
    (plot_data [folderA, folderD]).image = none ∧
    "No valid merged data found. Exiting." ∈ (plot_data [folderA, folderD]).diags :=
  C4_empty_merge_no_outputs [folderA, folderD] (by with_unfolding_all rfl)
    (Or.inr (by with_unfolding_all rfl))

/-- C7: for every filename of the form `prefix.prefix.<number>` — i.e. any
two dot-separated prefixes followed by a final dot-free segment that parses
as a float — `extract_numeric_part` returns exactly that segment's value,
regardless of how many dot-separated segments precede the final one. -/
theorem C7_filename_numeric_suffix (p1 p2 n : String) (q : ℚ)
    (hdot : '.' ∉ n.data) (hq : pyFloat n = some q) :
    extract_numeric_part (p1 ++ "." ++ p2 ++ "." ++ n) = some q := by
  unfold extract_numeric_part
  have hpt : ".".data = ['.'] := rfl
  have hdata : (p1 ++ "." ++ p2 ++ "." ++ n).data
      = (p1.data ++ '.' :: p2.data) ++ '.' :: n.data := by
    simp [String.data_append, hpt, List.append_assoc]
  rw [hdata, getLastD_splitOnChar_append _ _ hdot]
  cases n with
  | mk data => exact hq

/-- Witness for C7 at a concrete input: `run.x.100` parses to 100. -/
theorem C7_filename_numeric_suffix_witness :
    extract_numeric_part ("run" ++ "." ++ "x" ++ "." ++ "100") = some 100 :=
  C7_filename_numeric_suffix "run" "x" "100" 100 (by decide) (by decide)


set_option maxRecDepth 200000 in
/-- C1: the converted key, drag and power columns are exactly `k * 0.3048`,
`m * 4.44822` and `(k * 0.3048) * (m * 4.44822) / 1000` for every file with
parsed key `k` and raw measurement `m`; and in the two-folder end-to-end
scenario (keys 100 and 200, values 50/80 and 55/85) the merged table has
exactly 2 rows with converted keys 30.48 and 60.96, sorted ascending. -/
theorem C1_unit_conversion_and_scenario :
    (∀ (data : List (String × ℚ)) (rows : List Row), computeRows data = .ok rows →
      ∀ p ∈ data, ∀ k : ℚ, extract_numeric_part p.1 = some k →
        (⟨p.1, p.2, k * 0.3048, p.2 * 4.44822,
          (k * 0.3048) * (p.2 * 4.44822) / 1000⟩ : Row) ∈ rows) ∧
    (100 * 0.3048 : ℚ) = 30.48 ∧ (200 * 0.3048 : ℚ) = 60.96 ∧
    (plot_data [folderA, folderB]).spreadsheet = some
      [(100 * 0.3048,
        [⟨"run.100", 50, 100 * 0.3048, 50 * 4.44822, (100 * 0.3048) * (50 * 4.44822) / 1000⟩,
         ⟨"run.100", 55, 100 * 0.3048, 55 * 4.44822, (100 * 0.3048) * (55 * 4.44822) / 1000⟩]),
       (200 * 0.3048,
        [⟨"run.200", 80, 200 * 0.3048, 80 * 4.44822, (200 * 0.3048) * (80 * 4.44822) / 1000⟩,
         ⟨"run.200", 85, 200 * 0.3048, 85 * 4.44822, (200 * 0.3048) * (85 * 4.44822) / 1000⟩])] := by
  refine ⟨?_, by norm_num, by norm_num, by with_unfolding_all rfl⟩
  intro data rows h p hp k hk
  exact computeRows_mem h p hp k hk

set_option maxRecDepth 200000 in
/-- Witness for C1 at a concrete input: a single file `run.100` with
measurement 50 produces exactly the row built by the conversion formulas. -/
theorem C1_unit_conversion_and_scenario_witness :
    (⟨"run.100", 50, 100 * 0.3048, 50 * 4.44822,
      (100 * 0.3048) * (50 * 4.44822) / 1000⟩ : Row) ∈
      [(⟨"run.100", 50, 100 * 0.3048, 50 * 4.44822,
        (100 * 0.3048) * (50 * 4.44822) / 1000⟩ : Row)] :=
  C1_unit_conversion_and_scenario.1 [("run.100", 50)]
    [⟨"run.100", 50, 100 * 0.3048, 50 * 4.44822, (100 * 0.3048) * (50 * 4.44822) / 1000⟩]
    (by with_unfolding_all rfl) ("run.100", 50) (List.mem_singleton.mpr rfl) 100 (by decide)

/-! ### Keys of merged tables -/

theorem mem_map_fst_merge1 {acc : List MergedRow} {t : List Row} {k : ℚ} :
    k ∈ (merge1 acc t).map Prod.fst ↔
      (k ∈ acc.map Prod.fst ∧ k ∈ t.map Row.numericPart) := by
  simp only [merge1, List.map_flatMap, List.mem_flatMap, List.map_map, List.mem_map,
    List.mem_filter, decide_eq_true_eq, Function.comp]
  constructor
  · rintro ⟨kr, hkr, r, ⟨hrt, hre⟩, rfl⟩
    exact ⟨⟨kr, hkr, rfl⟩, r, hrt, hre⟩
  · rintro ⟨⟨kr, hkr, rfl⟩, r, hrt, hre⟩
    exact ⟨kr, hkr, r, ⟨hrt, hre⟩, rfl⟩

theorem mem_map_fst_foldl_merge1 (ts : List (List Row)) :
    ∀ (acc : List MergedRow) (k : ℚ),
      k ∈ (ts.foldl merge1 acc).map Prod.fst ↔
        (k ∈ acc.map Prod.fst ∧ ∀ t ∈ ts, k ∈ t.map Row.numericPart) := by
  induction ts with
  | nil => intro acc k; simp
  | cons t ts ih =>
    intro acc k
    rw [List.foldl_cons, ih, mem_map_fst_merge1]
    constructor
    · rintro ⟨⟨h1, h2⟩, h3⟩
      refine ⟨h1, fun u hu => ?_⟩
      rcases List.mem_cons.mp hu with h | h
      · exact h ▸ h2
      · exact h3 u h
    · rintro ⟨h1, h2⟩
      exact ⟨⟨h1, h2 t (List.mem_cons_self t ts)⟩,
        fun u hu => h2 u (List.mem_cons_of_mem t hu)⟩

theorem filter_key_length_eq_one {t : List Row} {k : ℚ}
    (hnd : (t.map Row.numericPart).Nodup) (hk : k ∈ t.map Row.numericPart) :
    (t.filter (fun r => decide (r.numericPart = k))).length = 1 := by
  induction t with
  | nil => simp at hk
  | cons r rest ih =>
    simp only [List.map_cons, List.nodup_cons] at hnd
    obtain ⟨hnotin, hnd2⟩ := hnd
    rcases List.mem_cons.mp hk with h | h
    · have hdec : decide (r.numericPart = k) = true := by simp [h]
      have hempty : rest.filter (fun x => decide (x.numericPart = k)) = [] := by
        refine List.filter_eq_nil_iff.mpr (fun x hx => ?_)
        simp only [decide_eq_true_eq]
        intro he
        exact hnotin (h ▸ he ▸ List.mem_map_of_mem Row.numericPart hx)
      simp [List.filter_cons, hdec, hempty]
    · have hne : ¬(r.numericPart = k) := fun he => hnotin (he ▸ h)
      have hdec : decide (r.numericPart = k) = false := by simp [hne]
      simp only [List.filter_cons, hdec, Bool.false_eq_true, if_false]
      exact ih hnd2 h

theorem length_merge1_init {t2 : List Row}
    (hnd2 : (t2.map Row.numericPart).Nodup) :
    ∀ t1 : List Row, (∀ k ∈ t1.map Row.numericPart, k ∈ t2.map Row.numericPart) →
      (merge1 (t1.map (fun r => (r.numericPart, [r]))) t2).length = t1.length := by
  intro t1
  induction t1 with
  | nil => intro _; simp [merge1]
  | cons r rest ih =>
    intro hsub
    have hsub2 : ∀ k ∈ rest.map Row.numericPart, k ∈ t2.map Row.numericPart :=
      fun k hk => hsub k (by simp only [List.map_cons]; exact List.mem_cons_of_mem _ hk)
    have hone : (t2.filter (fun x => decide (x.numericPart = r.numericPart))).length = 1 :=
      filter_key_length_eq_one hnd2 (hsub r.numericPart (by simp))
    have ih2 := ih hsub2
    simp only [merge1] at ih2 ⊢
    simp only [List.map_cons, List.flatMap_cons, List.length_append, List.length_map,
      List.length_cons]
    rw [hone]
    omega

/-- C2: a key appears in the merged table iff it appears in every joined
Folder Table (pairwise inner join); merging two tables with disjoint key sets
gives the empty table, and merging two tables with identical key sets (keys
unique within each) gives one row per shared key. -/
theorem C2_inner_join :
    (∀ (t : List Row) (ts : List (List Row)) (m : List MergedRow),
      mergeAll (t :: ts) = some m →
      ∀ k : ℚ, k ∈ m.map Prod.fst ↔
        (k ∈ t.map Row.numericPart ∧ ∀ u ∈ ts, k ∈ u.map Row.numericPart)) ∧
    (∀ t1 t2 : List Row,
      (∀ k : ℚ, ¬(k ∈ t1.map Row.numericPart ∧ k ∈ t2.map Row.numericPart)) →
      mergeAll [t1, t2] = some []) ∧
    (∀ t1 t2 : List Row,
      (t1.map Row.numericPart).Nodup → (t2.map Row.numericPart).Nodup →
      (∀ k : ℚ, k ∈ t1.map Row.numericPart ↔ k ∈ t2.map Row.numericPart) →
      ∃ m, mergeAll [t1, t2] = some m ∧ m.length = (t1.map Row.numericPart).length) := by
  have hinit : ∀ t : List Row,
      (t.map (fun r => (r.numericPart, [r]))).map Prod.fst = t.map Row.numericPart := by
    intro t; simp [List.map_map, Function.comp]
  refine ⟨?_, ?_, ?_⟩
  · intro t ts m hm k
    obtain rfl : (ts.foldl merge1 (t.map (fun r => (r.numericPart, [r])))) = m :=
      Option.some.inj hm
    rw [mem_map_fst_foldl_merge1, hinit]
  · intro t1 t2 hdisj
    have : merge1 (t1.map (fun r => (r.numericPart, [r]))) t2 = [] := by
      refine List.eq_nil_iff_forall_not_mem.mpr (fun x hx => ?_)
      have hfst : x.1 ∈ (merge1 (t1.map (fun r => (r.numericPart, [r]))) t2).map Prod.fst :=
        List.mem_map_of_mem Prod.fst hx
      rw [mem_map_fst_merge1, hinit] at hfst
      exact hdisj x.1 hfst
    simp [mergeAll, this]
  · intro t1 t2 hnd1 hnd2 hiff
    refine ⟨merge1 (t1.map (fun r => (r.numericPart, [r]))) t2, by simp [mergeAll], ?_⟩
    rw [length_merge1_init hnd2 t1 (fun k hk => (hiff k).mp hk), List.length_map]

/-- Witness for C2 at concrete inputs: a join of two one-row tables with
keys 5 and 7 is empty; a join of two copies of the key-5 table keeps one row;
and the key-membership equivalence holds on the singleton merge. -/
theorem C2_inner_join_witness :
    (mergeAll [[(⟨"x", 1, 5, 2, 3⟩ : Row)], [(⟨"y", 4, 7, 2, 3⟩ : Row)]] = some []) ∧
    (∃ m, mergeAll [[(⟨"x", 1, 5, 2, 3⟩ : Row)], [(⟨"x", 1, 5, 2, 3⟩ : Row)]] = some m ∧
      m.length = ([(⟨"x", 1, 5, 2, 3⟩ : Row)].map Row.numericPart).length) ∧
    ((5 : ℚ) ∈ [((5 : ℚ), [(⟨"x", 1, 5, 2, 3⟩ : Row)])].map Prod.fst ↔
      ((5 : ℚ) ∈ [(⟨"x", 1, 5, 2, 3⟩ : Row)].map Row.numericPart ∧
        ∀ u ∈ ([] : List (List Row)), (5 : ℚ) ∈ u.map Row.numericPart)) :=
  ⟨C2_inner_join.2.1 _ _ (by
      rintro k ⟨h1, h2⟩
      simp only [List.map_cons, List.map_nil, List.mem_singleton] at h1 h2
      rw [h1] at h2
      norm_num at h2),
   C2_inner_join.2.2 _ _ (by simp) (by simp) (fun k => Iff.rfl),
   C2_inner_join.1 [(⟨"x", 1, 5, 2, 3⟩ : Row)] [] _ rfl 5⟩

/-! ### Skipped files (per-file error recovery) -/

theorem dataStep_skip {f : FileEntry} (hcsv : endsWithCsv f.name = true)
    (hbad : (∃ msg, f.content = .readError msg) ∨
      (∃ cols rows, f.content = .table cols rows ∧ (cols ≤ 1 ∨ lastSecond rows = none)))
    (data : List (String × ℚ)) : dataStep data f = data := by
  rcases hbad with ⟨msg, hm⟩ | ⟨cols, rows, hm, hcr⟩
  · simp [dataStep, hcsv, hm]
  · rcases hcr with hle | hnone
    · simp [dataStep, hcsv, hm, Nat.not_lt.mpr hle]
    · by_cases h1 : 1 < cols
      · simp [dataStep, hcsv, hm, h1, hnone]
      · simp [dataStep, hcsv, hm, h1]

theorem diagStep_names_file {f : FileEntry} (hcsv : endsWithCsv f.name = true)
    (hbad : (∃ msg, f.content = .readError msg) ∨
      (∃ cols rows, f.content = .table cols rows ∧ (cols ≤ 1 ∨ lastSecond rows = none))) :
    ∃ a b, (a ++ f.name ++ b) ∈ diagStep f := by
  rcases hbad with ⟨msg, hm⟩ | ⟨cols, rows, hm, hcr⟩
  · exact ⟨"Error reading ", ": " ++ msg,
      by simp [diagStep, hcsv, hm, String.append_assoc]⟩
  · rcases hcr with hle | hnone
    · exact ⟨"File ", " does not have a second column.",
        by simp [diagStep, hcsv, hm, Nat.not_lt.mpr hle, String.append_assoc]⟩
    · by_cases h1 : 1 < cols
      · exact ⟨"Error reading ", ": single positional indexer is out-of-bounds",
          by simp [diagStep, hcsv, hm, h1, hnone, String.append_assoc]⟩
      · exact ⟨"File ", " does not have a second column.",
          by simp [diagStep, hcsv, hm, h1, String.append_assoc]⟩

/-- C5: a `.csv` file whose read fails, whose table has fewer than two
columns, or whose value extraction fails, is skipped: the aggregation dict is
exactly the one obtained without that file, and a diagnostic naming the file
is printed; the folder scan always completes (the aggregator is total). -/
theorem C5_bad_file_skipped (pre post : List FileEntry) (f : FileEntry)
    (hcsv : endsWithCsv f.name = true)
    (hbad : (∃ msg, f.content = .readError msg) ∨
      (∃ cols rows, f.content = .table cols rows ∧ (cols ≤ 1 ∨ lastSecond rows = none))) :
    aggregateData (pre ++ f :: post) = aggregateData (pre ++ post) ∧
    ∃ a b, (a ++ f.name ++ b) ∈ aggregateDiags (pre ++ f :: post) := by
  constructor
  · simp only [aggregateData, List.foldl_append, List.foldl_cons, dataStep_skip hcsv hbad]
  · obtain ⟨a, b, hd⟩ := diagStep_names_file hcsv hbad
    exact ⟨a, b, List.mem_flatMap.mpr ⟨f, by simp, hd⟩⟩

/-- Witness for C5 at a concrete input: an unreadable `bad.csv` between two
good files is skipped (same dict as without it) and its diagnostic is
printed. -/
theorem C5_bad_file_skipped_witness :
    aggregateData [⟨"run.100.csv", .table 2 [[0, 50]]⟩, ⟨"bad.csv", .readError "oops"⟩,
        ⟨"run.200.csv", .table 2 [[0, 80]]⟩] =
      aggregateData [⟨"run.100.csv", .table 2 [[0, 50]]⟩, ⟨"run.200.csv", .table 2 [[0, 80]]⟩] ∧
    ∃ a b, (a ++ "bad.csv" ++ b) ∈
      aggregateDiags [⟨"run.100.csv", .table 2 [[0, 50]]⟩, ⟨"bad.csv", .readError "oops"⟩,
        ⟨"run.200.csv", .table 2 [[0, 80]]⟩] :=
  C5_bad_file_skipped [⟨"run.100.csv", .table 2 [[0, 50]]⟩] [⟨"run.200.csv", .table 2 [[0, 80]]⟩]
    ⟨"bad.csv", .readError "oops"⟩ (by decide) (Or.inl ⟨"oops", rfl⟩)

/-! ### All-good folders (the Aggregator's success path) -/

theorem aggregate_good_aux (es : List FileEntry) :
    ∀ acc : List (String × ℚ),
      (∀ e ∈ es, endsWithCsv e.name = true ∧
        ∃ cols rows v, e.content = .table cols rows ∧ 1 < cols ∧ lastSecond rows = some v) →
      ((acc.map Prod.fst) ++ es.map (fun e => splitextBase e.name)).Nodup →
      es.foldl dataStep acc =
        acc ++ es.map (fun e =>
          (splitextBase e.name,
            match e.content with
            | .table _ rows => (lastSecond rows).getD 0
            | .readError _ => 0)) := by
  induction es with
  | nil => intro acc _ _; simp
  | cons e es ih =>
    intro acc hgood hnd
    obtain ⟨hcsv, cols, rows, v, hcont, hc, hlast⟩ := hgood e (by simp)
    have hdisj : (acc.map Prod.fst).Disjoint
        ((e :: es).map (fun e => splitextBase e.name)) :=
      List.disjoint_of_nodup_append hnd
    have hnotin : ¬(acc.any (fun p => p.1 = splitextBase e.name)) = true := by
      intro hany
      obtain ⟨p, hp, hp1⟩ := List.any_eq_true.mp hany
      simp only [decide_eq_true_eq] at hp1
      exact hdisj (hp1 ▸ List.mem_map_of_mem Prod.fst hp) (by simp)
    have hstep : dataStep acc e = acc ++ [(splitextBase e.name, v)] := by
      simp [dataStep, hcsv, hcont, hc, hlast, dictInsert, hnotin]
    rw [List.foldl_cons, hstep,
      ih (acc ++ [(splitextBase e.name, v)])
        (fun e' he' => hgood e' (List.mem_cons_of_mem e he'))
        (by simpa [List.append_assoc] using hnd)]
    simp [hcont, hlast, List.append_assoc]

/-- C6: for a folder of `.csv` files, each readable with at least two columns
and a last-row second-column value, with pairwise-distinct base names, the
aggregation dict has exactly one row per file, and the row keyed by a file's
base name holds exactly that file's last-row second-column value. -/
theorem C6_aggregator_rows (es : List FileEntry)
    (hgood : ∀ e ∈ es, endsWithCsv e.name = true ∧
      ∃ cols rows v, e.content = .table cols rows ∧ 1 < cols ∧ lastSecond rows = some v)
    (hnd : (es.map (fun e => splitextBase e.name)).Nodup) :
    (aggregateData es).length = es.length ∧
    ∀ e ∈ es, ∀ cols rows v, e.content = .table cols rows → lastSecond rows = some v →
      (splitextBase e.name, v) ∈ aggregateData es := by
  have h := aggregate_good_aux es [] hgood (by simpa using hnd)
  rw [aggregateData] at *
  rw [h]
  constructor
  · simp
  · intro e he cols rows v hcont hlast
    simp only [List.nil_append]
    refine List.mem_map.mpr ⟨e, he, ?_⟩
    simp [hcont, hlast]

/-- Witness for C6 at a concrete input: folder E's four files produce a
four-row dict holding each file's last-row second-column value. -/
theorem C6_aggregator_rows_witness :
    (aggregateData folderE.files).length = folderE.files.length ∧
    ∀ e ∈ folderE.files, ∀ cols rows v, e.content = .table cols rows →
      lastSecond rows = some v →
      (splitextBase e.name, v) ∈ aggregateData folderE.files :=
  C6_aggregator_rows folderE.files
    (by
      intro e he
      fin_cases he
      · exact ⟨rfl, 2, [[0, 50]], 50, rfl, by norm_num, rfl⟩
      · exact ⟨rfl, 2, [[0, 80]], 80, rfl, by norm_num, rfl⟩
      · exact ⟨rfl, 2, [[0, 90]], 90, rfl, by norm_num, rfl⟩
      · exact ⟨rfl, 2, [[0, 95]], 95, rfl, by norm_num, rfl⟩)
    (by decide)

/-! ### Sortedness of the export and of the plotted series -/

theorem sorted_sortMerged (m : List MergedRow) :
    List.Sorted (fun a b : MergedRow => a.1 ≤ b.1) (sortMerged m) := by
  have h := @List.sorted_mergeSort MergedRow (fun a b => decide (a.1 ≤ b.1))
    (fun a b c hab hbc => by
      simp only [decide_eq_true_eq] at *
      exact le_trans hab hbc)
    (fun a b => by
      simp only [Bool.or_eq_true, decide_eq_true_eq]
      exact le_total a.1 b.1)
    m
  exact h.imp (fun hab => of_decide_eq_true hab)

theorem sorted_sortRows (t : List Row) :
    List.Sorted (fun a b : Row => a.numericPart ≤ b.numericPart) (sortRows t) := by
  have h := @List.sorted_mergeSort Row (fun a b => decide (a.numericPart ≤ b.numericPart))
    (fun a b c hab hbc => by
      simp only [decide_eq_true_eq] at *
      exact le_trans hab hbc)
    (fun a b => by
      simp only [Bool.or_eq_true, decide_eq_true_eq]
      exact le_total a.numericPart b.numericPart)
    t
  exact h.imp (fun hab => of_decide_eq_true hab)

theorem spreadsheet_eq_sortMerged {folders : List Folder} {t : List MergedRow}
    (h : (plot_data folders).spreadsheet = some t) : ∃ m, t = sortMerged m := by
  simp only [plot_data] at h
  split at h
  · simp at h
  · split at h
    · simp at h
    · split at h
      · simp at h
      · split at h
        · exact ⟨_, (Option.some.inj h).symm⟩
        · exact ⟨_, (Option.some.inj h).symm⟩

theorem image_eq_plotStep {folders : List Folder} {ss : List PlotSeries}
    (h : (plot_data folders).image = some ss) :
    plotStep (process_csv_folders folders).tables = .ok ss := by
  simp only [plot_data] at h
  split at h
  · simp at h
  · split at h
    · simp at h
    · split at h
      · simp at h
      · split at h
        · simp at h
        · next heq => exact heq ▸ congrArg Except.ok (Option.some.inj h)

theorem plotStep_ok_points {tables : List (String × List Row)} {ss : List PlotSeries}
    (h : plotStep tables = .ok ss) :
    ∀ s ∈ ss, ∃ ft, ft ∈ tables ∧
      s.points = (sortRows ft.2).map (fun r => (r.numericPart, r.power)) := by
  induction tables generalizing ss with
  | nil =>
    intro s hs
    simp only [plotStep, Except.ok.injEq] at h
    subst h
    simp at hs
  | cons ft rest ih =>
    intro s hs
    simp only [plotStep] at h
    by_cases hlen : ((sortRows ft.2).map (fun r => (r.numericPart, r.power))).length < 4
    · rw [if_pos hlen] at h
      simp at h
    · rw [if_neg hlen] at h
      cases hrest : plotStep rest with
      | error e => rw [hrest] at h; simp [Except.map] at h
      | ok ss2 =>
        rw [hrest] at h
        simp only [Except.map, Except.ok.injEq] at h
        subst h
        rcases List.mem_cons.mp hs with h2 | h2
        · exact ⟨ft, by simp, by rw [h2]⟩
        · obtain ⟨ft2, hft2, hp⟩ := ih hrest s h2
          exact ⟨ft2, List.mem_cons_of_mem _ hft2, hp⟩

/-- C8: in every run that reaches the export, the exported merged table is
sorted ascending by the numeric key, and every plotted series is sorted
ascending by the key before plotting. -/
theorem C8_sorted_export_and_plot (folders : List Folder) :
    (∀ t, (plot_data folders).spreadsheet = some t →
      List.Sorted (fun a b : MergedRow => a.1 ≤ b.1) t) ∧
    (∀ ss, (plot_data folders).image = some ss →
      ∀ s ∈ ss, List.Sorted (fun p q : ℚ × ℚ => p.1 ≤ q.1) s.points) := by
  constructor
  · intro t ht
    obtain ⟨m, rfl⟩ := spreadsheet_eq_sortMerged ht
    exact sorted_sortMerged m
  · intro ss hss s hs
    obtain ⟨ft, _, hp⟩ := plotStep_ok_points (image_eq_plotStep hss) s hs
    rw [hp]
    exact List.Pairwise.map _ (fun a b hab => hab) (sorted_sortRows ft.2)

set_option maxRecDepth 400000 in
/-- Witness for C8 at a concrete input: folder E's run exports a 4-row table
sorted by key, and plots one series with sorted points. -/
theorem C8_sorted_export_and_plot_witness :
    List.Sorted (fun a b : MergedRow => a.1 ≤ b.1)
      [((762 : ℚ)/25, [⟨"run.100", 50, 762/25, 222411/1000, 84738591/12500000⟩]),
       ((1524 : ℚ)/25, [⟨"run.200", 80, 1524/25, 222411/625, 84738591/3906250⟩]),
       ((2286 : ℚ)/25, [⟨"run.300", 90, 2286/25, 2001699/5000, 2287941957/62500000⟩]),
       ((3048 : ℚ)/25, [⟨"run.400", 95, 3048/25, 4225809/10000, 1610033229/31250000⟩])] ∧
    ∀ s ∈ [(⟨"E",
        [((762 : ℚ)/25, (84738591 : ℚ)/12500000),
         ((1524 : ℚ)/25, (84738591 : ℚ)/3906250),
         ((2286 : ℚ)/25, (2287941957 : ℚ)/62500000),
         ((3048 : ℚ)/25, (1610033229 : ℚ)/31250000)]⟩ : PlotSeries)],
      List.Sorted (fun p q : ℚ × ℚ => p.1 ≤ q.1) s.points :=
  ⟨(C8_sorted_export_and_plot [folderE]).1 _ (by with_unfolding_all rfl),
   (C8_sorted_export_and_plot [folderE]).2 _ (by with_unfolding_all rfl)⟩

/-! ### The plot step fails after the export (no atomicity) -/

theorem plotStep_error_of_short {tables : List (String × List Row)}
    (h : ∃ ft ∈ tables, ft.2.length < 4) :
    ∃ e, plotStep tables = .error e := by
  induction tables with
  | nil => simp at h
  | cons ft rest ih =>
    obtain ⟨ft0, hft0, hlen⟩ := h
    rcases List.mem_cons.mp hft0 with h2 | h2
    · subst h2
      have hl : (sortRows ft0.2).length < 4 := by
        simpa [sortRows, List.length_mergeSort] using hlen
      exact ⟨"The number of derivatives at boundaries does not match: expected 1 but got " ++
        toString (sortRows ft0.2).length, by simp [plotStep, hl]⟩
    · by_cases hl : (sortRows ft.2).length < 4
      · exact ⟨"The number of derivatives at boundaries does not match: expected 1 but got " ++
          toString (sortRows ft.2).length, by simp [plotStep, hl]⟩
      · obtain ⟨e, he⟩ := ih ⟨ft0, h2, hlen⟩
        exact ⟨e, by simp [plotStep, hl, he, Except.map]⟩

/-- C10: when the merged table is non-empty, the spreadsheet is written
before any interpolation; if some folder has fewer than 4 points the cubic
interpolation raises and the run aborts with the spreadsheet already written
and no image file — the plot failure does not undo the export. -/
theorem C10_export_written_before_plot_failure (folders : List Folder) (m : List MergedRow)
    (herr : (process_csv_folders folders).err = none)
    (hm : mergeAll ((process_csv_folders folders).tables.map (fun ft => ft.2)) = some m)
    (hne : m ≠ [])
    (hshort : ∃ ft ∈ (process_csv_folders folders).tables, ft.2.length < 4) :
    (plot_data folders).spreadsheet = some (sortMerged m) ∧
    (plot_data folders).image = none ∧
    (plot_data folders).err.isSome = true := by
  obtain ⟨e, he⟩ := plotStep_error_of_short hshort
  have hemp : m.isEmpty = false := by
    cases m with
    | nil => exact absurd rfl hne
    | cons x xs => rfl
  simp [plot_data, herr, hm, hemp, he]

set_option maxRecDepth 400000 in
/-- Witness for C10 at a concrete input: the two-folder scenario has 2-point
folders, so the cubic fit fails, yet the sorted spreadsheet is written. -/
theorem C10_export_written_before_plot_failure_witness :
    (plot_data [folderA, folderB]).spreadsheet = some (sortMerged
      [((762 : ℚ)/25,
        [⟨"run.100", 50, 762/25, 222411/1000, 84738591/12500000⟩,
         ⟨"run.100", 55, 762/25, 2446521/10000, 932124501/125000000⟩]),
       ((1524 : ℚ)/25,
        [⟨"run.200", 80, 1524/25, 222411/625, 84738591/3906250⟩,
         ⟨"run.200", 85, 1524/25, 3780987/10000, 1440556047/62500000⟩])]) ∧
    (plot_data [folderA, folderB]).image = none ∧
    (plot_data [folderA, folderB]).err.isSome = true :=
  C10_export_written_before_plot_failure [folderA, folderB] _ (by with_unfolding_all rfl)
    (by with_unfolding_all rfl) (by simp)
    ⟨("A", [⟨"run.100", 50, 762/25, 222411/1000, 84738591/12500000⟩,
            ⟨"run.200", 80, 1524/25, 222411/625, 84738591/3906250⟩]),
      by
        have htab : (process_csv_folders [folderA, folderB]).tables =
            [("A", [⟨"run.100", 50, 762/25, 222411/1000, 84738591/12500000⟩,
                    ⟨"run.200", 80, 1524/25, 222411/625, 84738591/3906250⟩]),
             ("B", [⟨"run.100", 55, 762/25, 2446521/10000, 932124501/125000000⟩,
                    ⟨"run.200", 85, 1524/25, 3780987/10000, 1440556047/62500000⟩])] := by
          with_unfolding_all rfl
        rw [htab]
        simp,
      by simp⟩

/-! ### The uncaught filename-key error (line 57) -/

set_option maxRecDepth 200000 in
/-- C3 counterexample: in a folder holding the valid `run.100.csv` and the
readable two-column `run.abc.csv` (non-numeric key), the parse error is NOT
handled at file level: the run aborts with an exception, no Folder Table is
produced (the valid file's data is lost too), and no outputs are written —
the aggregation of the remaining files does not complete. -/
theorem C3_counterexample :
    (process_csv_folders [folderBad]).err = some "could not convert string to float: abc" ∧
    (process_csv_folders [folderBad]).tables = [] ∧
    (plot_data [folderBad]).spreadsheet = none ∧
    (plot_data [folderBad]).image = none := by
  refine ⟨?_, ?_, ?_, ?_⟩ <;> with_unfolding_all rfl

theorem keys_dictInsert {α : Type} (d : List (String × α)) (k : String) (v : α) :
    (dictInsert d k v).map Prod.fst = d.map Prod.fst ∨
    (dictInsert d k v).map Prod.fst = d.map Prod.fst ++ [k] := by
  unfold dictInsert
  split
  · left
    rw [List.map_map]
    refine List.map_congr_left (fun p _ => ?_)
    by_cases h : p.1 = k <;> simp [h]
  · right
    simp

theorem mem_keys_dictInsert_self {α : Type} (d : List (String × α)) (k : String) (v : α) :
    k ∈ (dictInsert d k v).map Prod.fst := by
  unfold dictInsert
  split
  · next hany =>
    obtain ⟨p, hp, hp1⟩ := List.any_eq_true.mp hany
    simp only [decide_eq_true_eq] at hp1
    refine List.mem_map.mpr ⟨(k, v), List.mem_map.mpr ⟨p, hp, by simp [hp1]⟩, rfl⟩
  · simp

theorem mem_keys_dataStep {d : List (String × ℚ)} {k : String} (e : FileEntry)
    (h : k ∈ d.map Prod.fst) : k ∈ (dataStep d e).map Prod.fst := by
  unfold dataStep
  split
  · split
    · exact h
    · split
      · split
        · rcases keys_dictInsert d (splitextBase e.name) _ with hk | hk <;> rw [hk]
          · exact h
          · exact List.mem_append_left _ h
        · exact h
      · exact h
  · exact h

theorem foldl_keys_mono (fs : List FileEntry) :
    ∀ (d : List (String × ℚ)) (k : String),
      k ∈ d.map Prod.fst → k ∈ (fs.foldl dataStep d).map Prod.fst := by
  induction fs with
  | nil => intro d k h; exact h
  | cons e fs ih =>
    intro d k h
    rw [List.foldl_cons]
    exact ih _ k (mem_keys_dataStep e h)

theorem key_in_aggregate {files : List FileEntry} {f : FileEntry}
    (hf : f ∈ files) (hcsv : endsWithCsv f.name = true)
    (hgood : ∃ cols rows v, f.content = .table cols rows ∧ 1 < cols ∧
      lastSecond rows = some v) :
    splitextBase f.name ∈ (aggregateData files).map Prod.fst := by
  obtain ⟨l1, l2, rfl⟩ := List.append_of_mem hf
  rw [aggregateData, List.foldl_append, List.foldl_cons]
  refine foldl_keys_mono l2 _ _ ?_
  obtain ⟨cols, rows, v, hcont, hc, hlast⟩ := hgood
  simp only [dataStep, hcsv, hcont, if_pos hc, hlast, if_true]
  exact mem_keys_dictInsert_self _ _ _

theorem computeRows_error_of_bad {data : List (String × ℚ)}
    (h : ∃ p ∈ data, extract_numeric_part p.1 = none) :
    ∃ e, computeRows data = .error e := by
  induction data with
  | nil => simp at h
  | cons hd tl ih =>
    obtain ⟨p, hp, hpe⟩ := h
    obtain ⟨name, v⟩ := hd
    cases he : extract_numeric_part name with
    | none =>
      exact ⟨"could not convert string to float: " ++
        String.mk ((splitOnChar '.' name.data).getLastD []), by simp [computeRows, he]⟩
    | some k =>
      rcases List.mem_cons.mp hp with h2 | h2
      · rw [h2] at hpe
        simp only at hpe
        rw [he] at hpe
        exact absurd hpe (by simp)
      · obtain ⟨e, hcr⟩ := ih ⟨p, h2, hpe⟩
        exact ⟨e, by simp [computeRows, he, hcr, Except.map]⟩

theorem folderStep_of_some {st : ProcResult} (fd : Folder)
    (h : st.err.isSome = true) : folderStep st fd = st := by
  obtain ⟨e, he⟩ := Option.isSome_iff_exists.mp h
  simp [folderStep, he]

theorem foldl_err_mono (folders : List Folder) :
    ∀ st : ProcResult, st.err.isSome = true →
      (folders.foldl folderStep st).err.isSome = true := by
  induction folders with
  | nil => intro st h; exact h
  | cons fd folders ih =>
    intro st h
    rw [List.foldl_cons, folderStep_of_some fd h]
    exact ih st h

/-- C3 amended: when a folder contains a readable two-column `.csv` file
whose base name's final dot-separated segment is not numeric, the parse error
is NOT caught at file level: it propagates out of `process_csv_folders` and
aborts the entire run, so neither output file is produced and no folder's
aggregation result survives. -/
theorem C3_nonnumeric_key_aborts_run (folders : List Folder) (fd : Folder) (f : FileEntry)
    (hfd : fd ∈ folders) (hf : f ∈ fd.files)
    (hcsv : endsWithCsv f.name = true)
    (hgood : ∃ cols rows v, f.content = .table cols rows ∧ 1 < cols ∧
      lastSecond rows = some v)
    (hbadkey : extract_numeric_part (splitextBase f.name) = none) :
    (process_csv_folders folders).err.isSome = true ∧
    (plot_data folders).spreadsheet = none ∧ (plot_data folders).image = none := by
  have herr : (process_csv_folders folders).err.isSome = true := by
    obtain ⟨l1, l2, rfl⟩ := List.append_of_mem hfd
    rw [process_csv_folders, List.foldl_append, List.foldl_cons]
    refine foldl_err_mono l2 _ ?_
    cases hst : (List.foldl folderStep ⟨[], [], none⟩ l1).err with
    | some e => rw [folderStep_of_some fd (by rw [hst]; rfl), hst]; rfl
    | none =>
      have hkey : splitextBase f.name ∈ (aggregateData fd.files).map Prod.fst :=
        key_in_aggregate hf hcsv hgood
      have hnonempty : (aggregateData fd.files).isEmpty = false := by
        cases hag : aggregateData fd.files with
        | nil => rw [hag] at hkey; simp at hkey
        | cons x xs => rfl
      obtain ⟨p, hp, hfst⟩ := List.mem_map.mp hkey
      obtain ⟨e, hcr⟩ := computeRows_error_of_bad ⟨p, hp, by rw [hfst]; exact hbadkey⟩
      simp [folderStep, hst, hnonempty, hcr]
  obtain ⟨e, he⟩ := Option.isSome_iff_exists.mp herr
  exact ⟨herr, by simp [plot_data, he], by simp [plot_data, he]⟩

/-- Witness for the amended C3 at a concrete input: the folder with
`run.abc.csv` aborts the whole run with no outputs. -/
theorem C3_nonnumeric_key_aborts_run_witness :
    (process_csv_folders [folderBad]).err.isSome = true ∧
    (plot_data [folderBad]).spreadsheet = none ∧
    (plot_data [folderBad]).image = none :=
  C3_nonnumeric_key_aborts_run [folderBad] folderBad ⟨"run.abc.csv", .table 2 [[0, 60]]⟩
    (List.mem_singleton.mpr rfl) (by simp [folderBad]) (by decide)
    ⟨2, [[0, 60]], 60, rfl, by norm_num, rfl⟩ (by decide)

/-- Witness for C9 at a concrete input: on folder A the full and reduced
pipelines coincide. -/
theorem C9_sigma_constants_unused_witness :
    process_csv_folders_full [folderA] = process_csv_folders [folderA] ∧
    plot_data_full [folderA] = plot_data [folderA] :=
  C9_sigma_constants_unused [folderA]

end Ordenar
